import Mathlib

/-!
Verification of the conversational core of the hedge-trading wallet bot:
the persisted per-user chat-history store (`src/services/chatHistory.ts`)
and the single-turn message dispatcher (`openai.ts`).

The TypeScript sources are shallowly embedded:
* JS arrays become `List`, the JS `Map` becomes an insertion-ordered
  association list with `Map`-style get/set/delete operations,
* JS exceptions become `Except String` values (stateful code that can throw
  mid-way returns the list of observable events produced so far together with
  an optional escaping exception),
* JS numbers are modelled as exact rationals (`Rat`); IEEE-754 double
  rounding is not modelled, no claim below depends on it,
* `Date.now()` becomes an explicit `now : Nat` parameter.
-/

namespace HedgeBot

/-! ## JavaScript primitives -/

/-- JS `Array.prototype.slice(start)` for a single, possibly negative, start
index: a negative start counts from the end of the array, clamped at 0;
a nonnegative start is clamped at the length. -/
def jsSliceFrom (start : Int) (l : List α) : List α :=
  l.drop (if start < 0 then max ((l.length : Int) + start) 0
          else min start (l.length : Int)).toNat

/-- JS `Map.prototype.get` on an insertion-ordered association list. -/
def mapGet (m : List (String × α)) (k : String) : Option α :=
  match m with
  | [] => none
  | (k', v) :: rest => if k' = k then some v else mapGet rest k

/-- JS `Map.prototype.set`: replaces the value in place if the key is present
(keeping its insertion position), otherwise appends the new entry. -/
def mapSet (m : List (String × α)) (k : String) (v : α) : List (String × α) :=
  match m with
  | [] => [(k, v)]
  | (k', v') :: rest => if k' = k then (k', v) :: rest else (k', v') :: mapSet rest k v

/-- JS `Map.prototype.delete`: removes the entry with the given key. -/
def mapDelete (m : List (String × α)) (k : String) : List (String × α) :=
  m.filter (fun p => p.1 != k)

/-- JS `new Map(entries)`: later entries with the same key overwrite earlier
ones, as repeated `Map.prototype.set` calls do. -/
def mapOfEntries (entries : List (String × α)) : List (String × α) :=
  entries.foldl (fun m e => mapSet m e.1 e.2) []

/-! ## `src/services/chatHistory.ts` -/

/-- Source `ChatMessage` (`{ timestamp, from, content }`); the `from` field is
renamed `sender` because `from` is a Lean keyword. -/
structure ChatMessage where
  timestamp : Nat
  sender : String
  content : String
deriving DecidableEq

structure UserChatHistory where
  userId : String
  messages : List ChatMessage
deriving DecidableEq

/-- The in-memory state of `ChatHistoryStore`: the private
`data : Map<string, UserChatHistory>` member. -/
structure ChatHistoryStore where
  data : List (String × UserChatHistory)
deriving DecidableEq

/-- Source constant `MAX_MESSAGES = 10`: history limit per user. -/
def MAX_MESSAGES : Nat := 10

def emptyStore : ChatHistoryStore := ⟨[]⟩

/-- The in-memory effect of `addMessage(userId, from, content)` evaluated at
time `now`: get (or create) the user's history, push the new message, keep
only the last `MAX_MESSAGES` entries, store the record back.  The
`saveData()` call has no in-memory effect; its fault behaviour is modelled
separately by `addMessageFull` below. -/
def ChatHistoryStore.addMessage (s : ChatHistoryStore)
    (userId sender content : String) (now : Nat) : ChatHistoryStore :=
  let userHistory := (mapGet s.data userId).getD ⟨userId, []⟩
  let msgs := userHistory.messages ++ [⟨now, sender, content⟩]
  let msgs' := if MAX_MESSAGES < msgs.length
    then jsSliceFrom (-(MAX_MESSAGES : Int)) msgs else msgs
  ⟨mapSet s.data userId ⟨userHistory.userId, msgs'⟩⟩

/-- Source `getHistory(userId, limit = MAX_MESSAGES)`: `[]` for an unknown user,
otherwise `messages.slice(-limit)`.  The limit keeps full JS number
semantics as an `Int` (so `slice(-0)` and `slice(-(-n))` behave as in JS). -/
def ChatHistoryStore.getHistory (s : ChatHistoryStore)
    (userId : String) (limit : Int) : List ChatMessage :=
  match mapGet s.data userId with
  | none => []
  | some userHistory => jsSliceFrom (-limit) userHistory.messages

/-- Source `getHistory` with its default `limit = MAX_MESSAGES` argument. -/
def ChatHistoryStore.getHistoryDefault (s : ChatHistoryStore)
    (userId : String) : List ChatMessage :=
  s.getHistory userId (MAX_MESSAGES : Int)

/-- Source `clearHistory(userId)`: `this.data.delete(userId)` (plus a `saveData()`
call, modelled separately by `clearHistoryFull`). -/
def ChatHistoryStore.clearHistory (s : ChatHistoryStore)
    (userId : String) : ChatHistoryStore :=
  ⟨mapDelete s.data userId⟩

/-- The message list currently stored for a user (`[]` if absent):
reading the map entry directly, used to state invariants. -/
def ChatHistoryStore.getMessages (s : ChatHistoryStore) (u : String) : List ChatMessage :=
  match mapGet s.data u with
  | none => []
  | some h => h.messages

/-- A sequence of `addMessage` calls, each `(userId, from, content, now)`. -/
def runAdds (s : ChatHistoryStore)
    (calls : List (String × String × String × Nat)) : ChatHistoryStore :=
  calls.foldl (fun t c => t.addMessage c.1 c.2.1 c.2.2.1 c.2.2.2) s

/-! ## Persistence (`loadData` / `saveData`)

`saveData` writes `JSON.stringify(Object.fromEntries(this.data), null, 2)`;
`loadData` rebuilds the map with `new Map(Object.entries(JSON.parse(...)))`.
For the data actually stored (integer epoch-ms timestamps, strings, arrays)
JSON stringify/parse round-trips values exactly, so serialization is
modelled at the level of the entry list of the JSON object.  What is *not*
the identity is the JS object key order: `Object.fromEntries` /
`Object.entries` place keys that are canonical array indices (canonical
decimal numerals below 2^32 - 1) first, in ascending numeric order, ahead of
all other keys; user ids here are Telegram ids rendered with `toString`, so
this reordering really occurs.  `jsObjectEntriesOrder` models it. -/

/-- Decimal digits of `n`, most significant first, via fuel-indexed
structural recursion (`fuel ≥ n` suffices; callers pass `n + 1`). -/
def natDigitsAux : Nat → Nat → List Char
  | 0, _ => []
  | fuel + 1, n =>
    if n < 10 then [Char.ofNat (48 + n)]
    else natDigitsAux fuel (n / 10) ++ [Char.ofNat (48 + n % 10)]

/-- Canonical decimal rendering of a natural number. -/
def natToString (n : Nat) : String := ⟨natDigitsAux (n + 1) n⟩

/-- Parse a digit string (most significant first); `none` on a non-digit. -/
def digitsToNat : List Char → Nat → Option Nat
  | [], acc => some acc
  | c :: cs, acc =>
    if 48 ≤ c.toNat ∧ c.toNat ≤ 57 then digitsToNat cs (acc * 10 + (c.toNat - 48))
    else none

/-- Whether a JS object key is a canonical array index (ECMA-262: a
canonical numeric string whose value is below 2^32 - 1). -/
def isArrayIndexKey (s : String) : Bool :=
  match digitsToNat s.data 0 with
  | none => false
  | some n => s.data ≠ [] && natToString n = s && n < 4294967295

/-- JS object key order: array-index keys first in ascending numeric order,
then the remaining keys in insertion order. -/
def jsObjectEntriesOrder (l : List (String × α)) : List (String × α) :=
  (l.filter (fun p => isArrayIndexKey p.1)).insertionSort
      (fun a b => (digitsToNat a.1.data 0).getD 0 ≤ (digitsToNat b.1.data 0).getD 0)
    ++ l.filter (fun p => !isArrayIndexKey p.1)

/-- Source `saveData`: the entry list of the serialized JSON object. -/
def saveData (s : ChatHistoryStore) : List (String × UserChatHistory) :=
  jsObjectEntriesOrder s.data

/-- Source `loadData` applied to a parsed entry list: `new Map(entries)`. -/
def loadData (entries : List (String × UserChatHistory)) : ChatHistoryStore :=
  ⟨mapOfEntries entries⟩

/-- The three relevant states of the backing `chat_history.json` file. -/
inductive FileState where
  | absent : FileState
  | unparseable : FileState
  | parsed : List (String × UserChatHistory) → FileState

/-- The body of `loadData()` in the constructor, before its `catch`:
a missing file is skipped (store stays empty), an unparseable file makes
`JSON.parse` throw, a parsed file is loaded into the map. -/
def loadDataBody : FileState → Except String ChatHistoryStore
  | FileState.absent => Except.ok emptyStore
  | FileState.unparseable => Except.error "SyntaxError: Unexpected token"
  | FileState.parsed entries => Except.ok (loadData entries)

/-- Constructor `new ChatHistoryStore()`: run `loadData()`; its `catch` logs the fault
and leaves `this.data` as the empty map built in the constructor. -/
def constructStore (fs : FileState) : ChatHistoryStore :=
  match loadDataBody fs with
  | Except.ok s => s
  | Except.error _ => emptyStore

/-- Node `fs.writeFileSync`, which either succeeds or throws. -/
def writeFileSyncM (writeOk : Bool) : Except String Unit :=
  if writeOk then Except.ok () else Except.error "EACCES: permission denied"

/-- Source `saveData()`: the write is wrapped in `try/catch`; a failure is logged
(`console.error`) and swallowed, so the call never throws. -/
def saveDataRun (writeOk : Bool) : Except String Unit :=
  match writeFileSyncM writeOk with
  | Except.ok _ => Except.ok ()
  | Except.error _ => Except.ok ()

/-- Source `addMessage` including its `saveData()` call, under a write that
succeeds or fails according to `writeOk`. -/
def addMessageFull (s : ChatHistoryStore) (userId sender content : String)
    (now : Nat) (writeOk : Bool) : Except String ChatHistoryStore :=
  let s' := s.addMessage userId sender content now
  match saveDataRun writeOk with
  | Except.ok _ => Except.ok s'
  | Except.error e => Except.error e

/-- Source `clearHistory` including its `saveData()` call. -/
def clearHistoryFull (s : ChatHistoryStore) (userId : String)
    (writeOk : Bool) : Except String ChatHistoryStore :=
  let s' := s.clearHistory userId
  match saveDataRun writeOk with
  | Except.ok _ => Except.ok s'
  | Except.error e => Except.error e

/-! ## `openai.ts`: string helpers -/

/-- The apostrophe character as a string, written by code point to keep
string literals plain. -/
def apostrophe : String := ⟨[Char.ofNat 39]⟩

/-- JS `String.prototype.replace` with a *string* pattern replaces only the
first (leftmost) occurrence; at the character level: find the first
position where `pat` is a prefix of the remaining text and splice in
`repl` there.  (`$`-substitution patterns in the replacement are not
modelled; no replacement below contains `$`.) -/
def listReplaceFirst (pat repl : List Char) : List Char → List Char
  | [] => []
  | c :: rest =>
    if pat.isPrefixOf (c :: rest) then repl ++ (c :: rest).drop pat.length
    else c :: listReplaceFirst pat repl rest

def jsReplaceFirst (s pat repl : String) : String :=
  ⟨listReplaceFirst pat.data repl.data s.data⟩

/-- JS `Number.prototype.toFixed(5)` for a nonnegative rational: round to an
integer numerator over 10^5 (ties away from zero, per ECMA-262 "pick the
larger n"), then print integer part, a dot, and exactly five fraction
digits. -/
def toFixed5Abs (q : Rat) : String :=
  let n : Nat := (Rat.floor (q * 100000 + 1 / 2)).toNat
  let frac := natToString (n % 100000)
  natToString (n / 100000) ++ "." ++ ⟨List.replicate (5 - frac.data.length) (Char.ofNat 48)⟩ ++ frac

/-- JS `Number.prototype.toFixed(5)` on exact rationals (IEEE-754 double
rounding is not modelled; no claim depends on it). -/
def toFixed5 (q : Rat) : String :=
  if q < 0 then "-" ++ toFixed5Abs (-q) else toFixed5Abs q

/-- The character class of `escapeMarkdown`:
`/[[\]()>#+\-=|.!_\\]/` together with the backtick and both braces
(written by code point). -/
def markdownSpecialChars : List Char :=
  ['[', ']', '(', ')', Char.ofNat 96, '>', '#', '+', '-', '=', '|',
   Char.ofNat 123, Char.ofNat 125, '.', '!', '_', '\\']

/-- Source `escapeMarkdown`: prefix every markup-control character with a
backslash (a global regex replace with `"\\$&"`). -/
def escapeMarkdown (text : String) : String :=
  ⟨(text.data.map (fun c =>
      if c ∈ markdownSpecialChars then ['\\', c] else [c])).flatten⟩

/-! ## `openai.ts`: the system prompt template

`SYSTEM_PROMPT` is the template literal of the source, reproduced exactly
and split at each `{...}` placeholder occurrence; the long stretch between
the first `{solBalance}` and the second `{usdcBalance}` is further chunked
(`promptSegM1` .. `promptSegM8`) so each piece stays small enough for
kernel evaluation.  Concatenating `promptSegA`, the placeholders, and the
remaining segments in the order of `SYSTEM_PROMPT` below reproduces the
source string character for character (the apostrophe in the source text
is `apostrophe`).  Note the balance placeholders each occur twice: once
near the top and once in the trailing reminder block. -/

def promptSegA : String := "Your name is Kira Kuru, an AI hedge fund manager who combines genius-level analysis with strategic market insights.\nYou are currently interacting with user as a Telegram bot that manages a crypto wallet for them in 1-on-1 conversations. \n\nWallet Address: "

def promptSegB : String := "\nCurrent USDC Balance: "

def promptSegC : String := " USDC\nCurrent USDi Balance: "

def promptSegD : String := " USDi\nCurrent SOL Balance: "

def promptSegM1 : String := " SOL\nUse these current balances to help the user\n\nProduct Information:\n• USDi is an interest-bearing token with 1:1 USD peg\n• Users can deposit USDC and convert to USDi to start minting\n• Yield is generated through delta-neutral strategies (funding rate, spread, MEV arbitrage)\n• Profits are automatically distributed to USDi holders\n"

def promptSegM2 : String := "• Longer holding periods and larger amounts earn proportionally higher yields\n• More info: https://docs.kira.trading/\n\nCurrent Status:\n• Only accepting USDC deposits\n• Users must convert USDC to USDi to earn yield\n\nYou can only execute 1 function/tool.\n\nAvailable functions:\n- chat: Handle user interaction requiring text responses\n"

def promptSegM3 : String := "- mint: Convert USDC to USDi (requires amount)\n- redeem: Convert USDi to USDC (requires amount)\n- withdraw: Withdraw USDC (requires amount and address, always ask for the amount and address if not specified)\n- deposit: Sends the wallet address in chat to user. \n\nResponse patterns [Replace x with the current balance mentioned above]:\n"

def promptSegM4 : String := "1. For deposit inquiries:\n   Use the deposit function for sending the wallet address to the user.\n\n2. For yield/mint inquiries:\n   \"Yield can be earned by converting USDC in your wallet to USDi. I can see there is x amount of USDC in your wallet.\"\n\n3. For conversion requests:\n   If USDC exists: \"There is x amount of USDC in your wallet. How much do you want to convert?\"\n"

def promptSegM5 : String := "   If no USDC: \"There is 0 amount of USDC in your wallet. Do you want to deposit more USDC? Here is your wallet address:\"\n\n4. For general withdrawal:\n   \"Do you want to withdraw USDi or USDC? \n   Withdraw USDi will convert USDi to USDC in your wallet\n   Withdraw USDC will send USDC to a different wallet address, please give me a new wallet address.\"\n\n"

def promptSegM6 : String := "5. For USDi withdrawal:\n   \"You have x amount USDi, how much do you want to withdraw?\"\n\n6. For USDC withdrawal:\n   \"You have x amount USDC, how much do you want to withdraw? And what"

def promptSegM7 : String := "s receiving wallet address?\"\n\nGuidelines:\n1. For amounts: Must have explicit numbers, otherwise use chat function\n2. For withdrawals: Need both amount and address, otherwise use chat function to ask user for the amount and/or address\n"

def promptSegM8 : String := "3. For minting/redeeming/withdrawal, always ask user for the amount to be processed. \n4. Always verify the amount and/or address being passed. \n5. Do not pass amount without user approval. If amount is not passed, use chat function to query for the amount, do not use 100% of balance.\n6. Default to chat function if unsure\n7. Always use the current balance mentioned\nCurrent USDC Balance: "

def SYSTEM_PROMPT : String :=
  promptSegA ++ "{walletAddress}" ++ promptSegB ++ "{usdcBalance}" ++ promptSegC
    ++ "{usdiBalance}" ++ promptSegD ++ "{solBalance}" ++ promptSegM1 ++ promptSegM2
    ++ promptSegM3 ++ promptSegM4 ++ promptSegM5 ++ promptSegM6 ++ apostrophe
    ++ promptSegM7 ++ promptSegM8 ++ "{usdcBalance}" ++ promptSegC ++ "{usdiBalance}"
    ++ promptSegD ++ "{solBalance}" ++ " SOL"

/-- Source expression `wallet?.publicKey || "Not created yet"` (the JS `||` also maps an
empty public key to the sentinel). -/
def walletDisplay : Option String → String
  | none => "Not created yet"
  | some pk => if pk = "" then "Not created yet" else pk

/-- Source `systemPromptWithData`: the four chained `.replace` calls of
`processMessage` (wallet address, then the three balances rendered with
`toFixed(5)`). -/
def systemPromptWithData (wallet : Option String) (usdc usdi sol : Rat) : String :=
  jsReplaceFirst
    (jsReplaceFirst
      (jsReplaceFirst
        (jsReplaceFirst SYSTEM_PROMPT "{walletAddress}" (walletDisplay wallet))
        "{usdcBalance}" (toFixed5 usdc))
      "{usdiBalance}" (toFixed5 usdi))
    "{solBalance}" (toFixed5 sol)

/-! ## `openai.ts`: `processMessage`

One turn is modelled as a function of a `TurnEnv` describing the results of
the external calls the turn makes (balance lookups, wallet lookup, the
OpenAI completion, and whether a dispatched command handler throws).  The
observable outcome is the list of events produced — handler invocations and
`ctx.reply` calls — together with the exception escaping to the caller, if
any.  `JSON.parse(toolCall.function.arguments || "{}")` is modelled at the
granularity the dispatcher consumes: the wire arguments are either absent
(falsy, parsed as the empty object), malformed (parse throws), or a record
of the optional `amount`, `address` and `message` fields. -/

inductive ArgsWire where
  | malformed : ArgsWire
  | fields : Option Rat → Option String → Option String → ArgsWire
deriving DecidableEq

structure ParsedArgs where
  amount : Option Rat
  address : Option String
  message : Option String
deriving DecidableEq

/-- One element of `message.tool_calls`: `function.name` and the raw
`function.arguments` (`none` models a falsy raw string, replaced by
`"{}"`). -/
structure ToolCallData where
  name : String
  arguments : Option ArgsWire
deriving DecidableEq

/-- Shape of `completion.choices[i].message`: the optional tool-call list and the
optional text `content`. -/
structure CompletionMsg where
  toolCalls : List ToolCallData
  content : Option String
deriving DecidableEq

/-- Observable events of one turn. -/
inductive Event where
  | handlerCall : String → Option Rat → Option String → Event
  | replySent : String → Event
deriving DecidableEq

/-- Results of a turn's external interactions. -/
structure TurnEnv where
  hasText : Bool
  hasFrom : Bool
  sol : Except String Rat
  usdc : Except String Rat
  usdi : Except String Rat
  wallet : Option String
  completion : Except String (List CompletionMsg)
  handlerThrows : String → Bool

/-- Events of the turn plus the exception escaping `processMessage` to its
caller, if any. -/
structure TurnOut where
  events : List Event
  thrown : Option String
deriving DecidableEq

def apologyText : String := "Sorry, something went wrong."

def fallbackText : String :=
  "I couldn" ++ apostrophe ++ "t process that request. Please try again."

/-- Model of `JSON.parse(toolCall.function.arguments || "{}")`. -/
def parseArgs : Option ArgsWire → Except String ParsedArgs
  | none => Except.ok ⟨none, none, none⟩
  | some ArgsWire.malformed => Except.error "SyntaxError: Unexpected token in JSON"
  | some (ArgsWire.fields amount address message) => Except.ok ⟨amount, address, message⟩

/-- Invoking an external command handler: the invocation is observable,
and the handler either returns or throws (per `handlerThrows`). -/
def runHandler (env : TurnEnv) (name : String) (amount : Option Rat)
    (address : Option String) : List Event × Option String :=
  if env.handlerThrows name
  then ([Event.handlerCall name amount address], some "HandlerFault")
  else ([Event.handlerCall name amount address], none)

/-- The `switch (toolCall.function.name)` of `processMessage`.  Note three
facts of the source faithfully kept here: the switch also routes
`"balance"` (a commented-out tool) to `handleBalance`; the `"withdraw"`
case passes `args.address` and `args.amount` through unvalidated; and there
is *no default case*, so an unrecognized name produces no event at all.
The `"chat"` case replies with `escapeMarkdown(args.message)`, which throws
a `TypeError` when `args.message` is `undefined`. -/
def dispatchSwitch (env : TurnEnv) (name : String) (args : ParsedArgs) :
    List Event × Option String :=
  if name = "mint" then runHandler env "mint" args.amount none
  else if name = "balance" then runHandler env "balance" none none
  else if name = "redeem" then runHandler env "redeem" args.amount none
  else if name = "withdraw" then runHandler env "withdraw" args.amount args.address
  else if name = "deposit" then runHandler env "deposit" none none
  else if name = "chat" then
    match args.message with
    | none => ([], some "TypeError: text is undefined")
    | some m => ([Event.replySent (escapeMarkdown m)], none)
  else ([], none)

/-- The `try` block of `processMessage`: the completion call (which may
throw), the `choices[0]` access (a `TypeError` when `choices` is empty),
`tool_calls?.[0]`, argument parsing, and then either the switch, the
free-text reply (`content` must be truthy: non-null and non-empty), or the
fixed fallback reply. -/
def tryBlock (env : TurnEnv) : List Event × Option String :=
  match env.completion with
  | Except.error e => ([], some e)
  | Except.ok choices =>
    match choices.head? with
    | none => ([], some "TypeError: choices is empty")
    | some msg =>
      match msg.toolCalls.head? with
      | some tc =>
        match parseArgs tc.arguments with
        | Except.error e => ([], some e)
        | Except.ok args => dispatchSwitch env tc.name args
      | none =>
        match msg.content with
        | some r => if r = "" then ([Event.replySent fallbackText], none)
                    else ([Event.replySent r], none)
        | none => ([Event.replySent fallbackText], none)

/-- Source `processMessage`: early return when the message text or the sender id
is falsy; then the three balance lookups and the wallet lookup *outside*
any `try`; then the prompt rendering and the `try` block, whose `catch`
replies with the fixed apology text. -/
def processMessage (env : TurnEnv) : TurnOut :=
  if !env.hasText || !env.hasFrom then ⟨[], none⟩
  else
    match env.sol with
    | Except.error e => ⟨[], some e⟩
    | Except.ok solB =>
      match env.usdc with
      | Except.error e => ⟨[], some e⟩
      | Except.ok usdcB =>
        match env.usdi with
        | Except.error e => ⟨[], some e⟩
        | Except.ok usdiB =>
          let _sysPrompt := systemPromptWithData env.wallet usdcB usdiB solB
          match tryBlock env with
          | (evs, none) => ⟨evs, none⟩
          | (evs, some _) => ⟨evs ++ [Event.replySent apologyText], none⟩

/-- The six action names the switch recognizes. -/
def handledNames : List String :=
  ["mint", "balance", "redeem", "withdraw", "deposit", "chat"]

-- sanity checks on concrete data
example : natToString 1234 = "1234" := by decide

example : escapeMarkdown "hi there" = "hi there" := by decide

example : escapeMarkdown "a.b!" = "a\\.b\\!" := by decide

-- a turn whose selection names "transfer": no handler, no reply, no throw
example :
    processMessage ⟨true, true, Except.ok 0, Except.ok 0, Except.ok 0, none,
      Except.ok [⟨[⟨"transfer", some (ArgsWire.fields none none none)⟩], none⟩],
      fun _ => false⟩ = ⟨[], none⟩ := by rfl

-- a withdraw selection with an amount but no address still reaches the handler
example :
    processMessage ⟨true, true, Except.ok 0, Except.ok 0, Except.ok 0, none,
      Except.ok [⟨[⟨"withdraw", some (ArgsWire.fields (some 5) none none)⟩], none⟩],
      fun _ => false⟩ = ⟨[Event.handlerCall "withdraw" (some 5) none], none⟩ := by rfl

-- a failing balance lookup escapes with no reply
example :
    processMessage ⟨true, true, Except.error "rpc down", Except.ok 0, Except.ok 0, none,
      Except.ok [], fun _ => false⟩ = ⟨[], some "rpc down"⟩ := by rfl

-- a failing completion call is caught and answered with the apology
example :
    processMessage ⟨true, true, Except.ok 0, Except.ok 0, Except.ok 0, none,
      Except.error "timeout", fun _ => false⟩
      = ⟨[Event.replySent apologyText], none⟩ := by rfl

example : isArrayIndexKey "42" = true ∧ isArrayIndexKey "alice" = false
    ∧ isArrayIndexKey "007" = false ∧ isArrayIndexKey "" = false := by decide

example :
    saveData ⟨[("alice", ⟨"alice", []⟩), ("42", ⟨"42", []⟩), ("7", ⟨"7", []⟩)]⟩
      = [("7", ⟨"7", []⟩), ("42", ⟨"42", []⟩), ("alice", ⟨"alice", []⟩)] := by decide
example :
    ((emptyStore.addMessage "u" "user" "hi" 1).addMessage "u" "assistant" "yo" 2).getMessages "u"
      = [⟨1, "user", "hi"⟩, ⟨2, "assistant", "yo"⟩] := by decide

example :
    ((emptyStore.addMessage "u" "user" "hi" 1).addMessage "u" "assistant" "yo" 2).getHistory "u" 1
      = [⟨2, "assistant", "yo"⟩] := by decide

example :
    ((emptyStore.addMessage "u" "user" "hi" 1).addMessage "u" "assistant" "yo" 2).getHistory "u" 0
      = [⟨1, "user", "hi"⟩, ⟨2, "assistant", "yo"⟩] := by decide

example :
    ((runAdds emptyStore ((List.range 13).map (fun i => ("u", "user", "m", i)))).getMessages "u").length
      = 10 := by decide

/-! ## Lemmas about the map primitives -/

theorem mapGet_cons (a : String) (b : α) (rest : List (String × α)) (k : String) :
    mapGet ((a, b) :: rest) k = if a = k then some b else mapGet rest k := rfl

theorem mapSet_cons (a : String) (b : α) (rest : List (String × α)) (k : String) (v : α) :
    mapSet ((a, b) :: rest) k v
      = if a = k then (a, v) :: rest else (a, b) :: mapSet rest k v := rfl

theorem mapGet_mapSet_self (m : List (String × α)) (k : String) (v : α) :
    mapGet (mapSet m k v) k = some v := by
  induction m with
  | nil => simp [mapGet, mapSet]
  | cons e rest ih =>
    obtain ⟨a, b⟩ := e
    rw [mapSet_cons]
    by_cases h : a = k
    · rw [if_pos h, mapGet_cons, if_pos h]
    · rw [if_neg h, mapGet_cons, if_neg h, ih]

theorem mapGet_mapSet_ne (m : List (String × α)) (k k' : String) (v : α)
    (h : k' ≠ k) : mapGet (mapSet m k v) k' = mapGet m k' := by
  induction m with
  | nil => simp [mapGet, mapSet, Ne.symm h]
  | cons e rest ih =>
    obtain ⟨a, b⟩ := e
    rw [mapSet_cons]
    by_cases ha : a = k
    · rw [if_pos ha, mapGet_cons, mapGet_cons]
      have : a ≠ k' := fun e => h (e.symm.trans ha)
      rw [if_neg this, if_neg this]
    · rw [if_neg ha, mapGet_cons, mapGet_cons]
      by_cases ha' : a = k'
      · rw [if_pos ha', if_pos ha']
      · rw [if_neg ha', if_neg ha', ih]

theorem mapGet_mapDelete_ne (m : List (String × α)) (k k' : String)
    (h : k' ≠ k) : mapGet (mapDelete m k) k' = mapGet m k' := by
  induction m with
  | nil => rfl
  | cons e rest ih =>
    obtain ⟨a, b⟩ := e
    show mapGet (List.filter (fun p => p.1 != k) ((a, b) :: rest)) k' = _
    rw [List.filter_cons]
    by_cases ha : a = k
    · rw [if_neg (by simp [ha]), mapGet_cons, if_neg (fun e => h (e.symm.trans ha))]
      exact ih
    · rw [if_pos (by simp [ha]), mapGet_cons, mapGet_cons]
      by_cases ha' : a = k'
      · rw [if_pos ha', if_pos ha']
      · rw [if_neg ha', if_neg ha']
        exact ih

theorem mapGet_eq_of_perm {l₁ l₂ : List (String × α)} (h : l₁.Perm l₂) :
    (l₁.map Prod.fst).Nodup → ∀ k, mapGet l₁ k = mapGet l₂ k := by
  induction h with
  | nil => intro _ _; rfl
  | cons x _ ih =>
    intro nd k
    obtain ⟨a, v⟩ := x
    rw [mapGet_cons, mapGet_cons]
    rw [List.map_cons] at nd
    have nd' := (List.nodup_cons.mp nd).2
    by_cases ha : a = k
    · rw [if_pos ha, if_pos ha]
    · rw [if_neg ha, if_neg ha, ih nd' k]
  | swap x y l =>
    intro nd k
    obtain ⟨a, av⟩ := x
    obtain ⟨b, bv⟩ := y
    have hab : b ≠ a := by
      intro e
      simp [e] at nd
    rw [mapGet_cons, mapGet_cons, mapGet_cons, mapGet_cons]
    by_cases hbk : b = k
    · have hak : a ≠ k := fun e => hab (hbk.trans e.symm)
      rw [if_pos hbk, if_neg hak, if_pos hbk]
    · rw [if_neg hbk]
      by_cases hak : a = k
      · rw [if_pos hak, if_pos hak]
      · rw [if_neg hak, if_neg hak, if_neg hbk]
  | trans h₁ _ ih₁ ih₂ =>
    intro nd k
    exact (ih₁ nd k).trans (ih₂ (((h₁.map Prod.fst).nodup) nd) k)

theorem mapSet_append_of_not_mem (m : List (String × α)) (k : String) (v : α)
    (h : k ∉ m.map Prod.fst) : mapSet m k v = m ++ [(k, v)] := by
  induction m with
  | nil => rfl
  | cons e rest ih =>
    obtain ⟨a, b⟩ := e
    have ha : a ≠ k := fun e => h (by simp [e])
    have h' : k ∉ rest.map Prod.fst := fun hm => h (by simp [hm])
    rw [mapSet_cons, if_neg ha, ih h', List.cons_append]

theorem foldl_mapSet_eq_append (m : List (String × α)) :
    ∀ acc, ((acc ++ m).map Prod.fst).Nodup →
      m.foldl (fun t e => mapSet t e.1 e.2) acc = acc ++ m := by
  induction m with
  | nil => intro acc _; simp
  | cons e rest ih =>
    intro acc nd
    obtain ⟨k, v⟩ := e
    rw [List.map_append] at nd
    obtain ⟨nd₁, nd₂, disj⟩ := List.nodup_append.mp nd
    have hk : k ∉ acc.map Prod.fst := fun hm => disj hm (by simp)
    have step : mapSet acc k v = acc ++ [(k, v)] := mapSet_append_of_not_mem acc k v hk
    have nd' : (((acc ++ [(k, v)]) ++ rest).map Prod.fst).Nodup := by
      rw [List.append_assoc]
      simpa [List.map_append] using nd
    simp only [List.foldl_cons, step]
    rw [ih (acc ++ [(k, v)]) nd']
    simp

theorem mapOfEntries_eq_self (m : List (String × α))
    (nd : (m.map Prod.fst).Nodup) : mapOfEntries m = m := by
  simpa using foldl_mapSet_eq_append m [] (by simpa using nd)

theorem jsObjectEntriesOrder_perm (l : List (String × α)) :
    (jsObjectEntriesOrder l).Perm l := by
  unfold jsObjectEntriesOrder
  exact ((List.perm_insertionSort _ _).append (List.Perm.refl _)).trans
    (List.filter_append_perm _ l)

/-! ## Lemmas about `jsSliceFrom`, `addMessage` and `getHistory` -/

theorem jsSliceFrom_neg (n : Nat) (hn : 0 < n) (l : List α) :
    jsSliceFrom (-(n : Int)) l = l.drop (l.length - n) := by
  unfold jsSliceFrom
  rw [if_pos (by omega : -(n : Int) < 0)]
  congr 1
  omega

theorem getHistory_eq (s : ChatHistoryStore) (u : String) (limit : Int) :
    s.getHistory u limit = jsSliceFrom (-limit) (s.getMessages u) := by
  unfold ChatHistoryStore.getHistory ChatHistoryStore.getMessages
  cases mapGet s.data u with
  | none =>
    show ([] : List ChatMessage) = jsSliceFrom (-limit) []
    unfold jsSliceFrom
    rw [List.drop_nil]
  | some uh => rfl

theorem addMessage_getMessages (s : ChatHistoryStore)
    (u sender content : String) (now : Nat) :
    (s.addMessage u sender content now).getMessages u =
      if MAX_MESSAGES < (s.getMessages u ++ ([⟨now, sender, content⟩] : List ChatMessage)).length
      then jsSliceFrom (-(MAX_MESSAGES : Int)) (s.getMessages u ++ [⟨now, sender, content⟩])
      else s.getMessages u ++ [⟨now, sender, content⟩] := by
  unfold ChatHistoryStore.addMessage ChatHistoryStore.getMessages
  cases h : mapGet s.data u <;>
    simp [h, mapGet_mapSet_self]

theorem addMessage_getMessages_length (s : ChatHistoryStore)
    (u sender content : String) (now : Nat) :
    ((s.addMessage u sender content now).getMessages u).length
      = min ((s.getMessages u).length + 1) MAX_MESSAGES := by
  rw [addMessage_getMessages]
  split_ifs with h
  · rw [jsSliceFrom_neg MAX_MESSAGES (by decide)]
    simp only [List.length_drop, List.length_append, List.length_cons, List.length_nil] at h ⊢
    omega
  · simp only [List.length_append, List.length_cons, List.length_nil] at h ⊢
    omega

theorem addMessage_getMessages_suffix (s : ChatHistoryStore)
    (u sender content : String) (now : Nat) :
    (s.addMessage u sender content now).getMessages u
      <:+ s.getMessages u ++ ([⟨now, sender, content⟩] : List ChatMessage) := by
  rw [addMessage_getMessages]
  split_ifs with h
  · rw [jsSliceFrom_neg MAX_MESSAGES (by decide)]
    exact List.drop_suffix _ _
  · exact List.suffix_refl _

theorem addMessage_getMessages_other (s : ChatHistoryStore)
    (u v sender content : String) (now : Nat) (h : v ≠ u) :
    (s.addMessage u sender content now).getMessages v = s.getMessages v := by
  unfold ChatHistoryStore.addMessage ChatHistoryStore.getMessages
  rw [mapGet_mapSet_ne _ _ _ _ h]

theorem addMessage_len_le (s : ChatHistoryStore)
    (u u' sender content : String) (now : Nat)
    (h : ((s.getMessages u').length ≤ MAX_MESSAGES)) :
    ((s.addMessage u sender content now).getMessages u').length ≤ MAX_MESSAGES := by
  by_cases hu : u' = u
  · subst hu
    rw [addMessage_getMessages_length]
    omega
  · rw [addMessage_getMessages_other s u u' sender content now hu]
    exact h

theorem runAdds_len_le (calls : List (String × String × String × Nat)) :
    ∀ (s : ChatHistoryStore) (u : String),
      (s.getMessages u).length ≤ MAX_MESSAGES →
      ((runAdds s calls).getMessages u).length ≤ MAX_MESSAGES := by
  induction calls with
  | nil => intro s u h; exact h
  | cons c rest ih =>
    intro s u h
    exact ih _ u (addMessage_len_le s c.1 u c.2.1 c.2.2.1 c.2.2.2 h)

theorem getHistory_of_len_le (s : ChatHistoryStore) (u : String)
    (h : (s.getMessages u).length ≤ MAX_MESSAGES) :
    s.getHistory u (MAX_MESSAGES : Int) = s.getMessages u := by
  rw [getHistory_eq, jsSliceFrom_neg MAX_MESSAGES (by decide)]
  have : (s.getMessages u).length - MAX_MESSAGES = 0 := by omega
  rw [this, List.drop_zero]

theorem getHistory_pos_len (s : ChatHistoryStore) (u : String) (limit : Int)
    (hl : 1 ≤ limit) :
    (s.getHistory u limit).length = min limit.toNat (s.getMessages u).length := by
  rw [getHistory_eq]
  have : -limit = -(limit.toNat : Int) := by omega
  rw [this, jsSliceFrom_neg limit.toNat (by omega)]
  simp only [List.length_drop]
  omega

theorem getHistory_pos_suffix (s : ChatHistoryStore) (u : String) (limit : Int)
    (hl : 1 ≤ limit) :
    s.getHistory u limit <:+ s.getMessages u := by
  rw [getHistory_eq]
  have : -limit = -(limit.toNat : Int) := by omega
  rw [this, jsSliceFrom_neg limit.toNat (by omega)]
  exact List.drop_suffix _ _

/-! ## Concrete stores used by witnesses and counterexamples -/

/-- A store with one numeric-string key (as Telegram user ids are) and one
non-numeric key. -/
def sampleStore : ChatHistoryStore :=
  (emptyStore.addMessage "42" "user" "hello" 100).addMessage "alice" "assistant" "hi there" 200

/-- A store holding two messages for user "u". -/
def twoMsgStore : ChatHistoryStore :=
  (emptyStore.addMessage "u" "user" "hi" 1).addMessage "u" "assistant" "yo" 2

/-! ## Claim C1 -/

/-- C1: Bounded history invariant.  For every store state and every
`addMessage` call, the mutated user's stored list has length
`min (old + 1) MAX_MESSAGES` (so at most `MAX_MESSAGES = 10`) and is a
suffix of the old list with the new message appended — FIFO eviction of the
oldest only, never the newest; `getHistory` at its default limit returns
exactly that stored list (most recent messages, chronological order); and
the bound persists through every further sequence of `addMessage` calls. -/
theorem claim_bounded_history_fifo (s : ChatHistoryStore)
    (u sender content : String) (now : Nat) :
    ((s.addMessage u sender content now).getMessages u).length
        = min ((s.getMessages u).length + 1) MAX_MESSAGES
    ∧ (s.addMessage u sender content now).getMessages u
        <:+ s.getMessages u ++ ([⟨now, sender, content⟩] : List ChatMessage)
    ∧ (s.addMessage u sender content now).getHistoryDefault u
        = (s.addMessage u sender content now).getMessages u
    ∧ ∀ calls, ((runAdds (s.addMessage u sender content now) calls).getMessages u).length
        ≤ MAX_MESSAGES := by
  refine ⟨addMessage_getMessages_length s u sender content now,
    addMessage_getMessages_suffix s u sender content now, ?_, ?_⟩
  · apply getHistory_of_len_le
    rw [addMessage_getMessages_length]
    omega
  · intro calls
    apply runAdds_len_le
    rw [addMessage_getMessages_length]
    omega

/-! ## Claim C6 -/

/-- C6: Persistence round-trip.  Serializing the full mapping (`saveData`,
including the JS object key reordering) and reloading it (`loadData`)
yields a store whose `getHistory` agrees with the original for every user
and limit.  The `Nodup` hypothesis states that the store's map has no
duplicate keys, which holds for every real `Map`. -/
theorem claim_persistence_roundtrip (s : ChatHistoryStore) (u : String) (limit : Int)
    (hnd : (s.data.map Prod.fst).Nodup) :
    (loadData (saveData s)).getHistory u limit = s.getHistory u limit := by
  have hperm := jsObjectEntriesOrder_perm s.data
  have hnd' : ((jsObjectEntriesOrder s.data).map Prod.fst).Nodup :=
    ((hperm.map Prod.fst).symm.nodup) hnd
  have hload : loadData (saveData s) = ⟨jsObjectEntriesOrder s.data⟩ := by
    unfold loadData saveData
    rw [mapOfEntries_eq_self _ hnd']
  have hget : mapGet (jsObjectEntriesOrder s.data) u = mapGet s.data u :=
    mapGet_eq_of_perm hperm hnd' u
  rw [hload]
  unfold ChatHistoryStore.getHistory
  rw [hget]

/-- C6 witness: the round-trip theorem applied to a concrete store whose
keys really are reordered by serialization. -/
theorem claim_persistence_roundtrip_witness :
    ((sampleStore.data.map Prod.fst).Nodup)
    ∧ (loadData (saveData sampleStore)).getHistory "alice" 10
        = sampleStore.getHistory "alice" 10 :=
  ⟨by decide, claim_persistence_roundtrip sampleStore "alice" 10 (by decide)⟩

/-! ## Claim C7 -/

/-- C7 counterexample: `getHistory(u, 0)` returns the *entire* stored list
(JS `slice(-0)` is `slice(0)`), not the `min(0, len) = 0` messages the
claim's contract requires for every limit argument. -/
theorem claim_getHistory_limit_zero_counterexample :
    twoMsgStore.getHistory "u" 0
        = [⟨1, "user", "hi"⟩, ⟨2, "assistant", "yo"⟩]
    ∧ twoMsgStore.getHistory "u" 0 ≠ [] := by
  constructor
  · decide
  · decide

/-- C7 (amended): for every limit ≥ 1, `getHistory(userId, limit)` returns
the newest `min(limit, len)` stored messages in chronological order (a
suffix of the stored list of that length), and returns `[]` for a user
with no stored log; the call does not modify the store (it is a pure
function of it). -/
theorem claim_getHistory_contract (s : ChatHistoryStore) (u : String) (limit : Int)
    (hl : 1 ≤ limit) :
    (s.getHistory u limit).length = min limit.toNat (s.getMessages u).length
    ∧ s.getHistory u limit <:+ s.getMessages u
    ∧ (mapGet s.data u = none → s.getHistory u limit = []) :=
  ⟨getHistory_pos_len s u limit hl, getHistory_pos_suffix s u limit hl,
   fun h => by unfold ChatHistoryStore.getHistory; rw [h]⟩

/-- C7 witness: the contract theorem applied at limit 1 to a concrete
store with two stored messages. -/
theorem claim_getHistory_contract_witness :
    ((1 : Int) ≤ 1)
    ∧ ((twoMsgStore.getHistory "u" 1).length
          = min (1 : Int).toNat (twoMsgStore.getMessages "u").length
       ∧ twoMsgStore.getHistory "u" 1 <:+ twoMsgStore.getMessages "u"
       ∧ (mapGet twoMsgStore.data "u" = none → twoMsgStore.getHistory "u" 1 = [])) :=
  ⟨by decide, claim_getHistory_contract twoMsgStore "u" 1 (by decide)⟩

/-! ## Claim C8 -/

/-- C8: Persistence-fault tolerance.  Constructing the store with the
backing file absent, or present but unparseable, yields the empty store
rather than an error; and `addMessage` / `clearHistory` complete their
in-memory mutation and return normally whether or not the `saveData` write
succeeds (the write fault is swallowed by `saveData`'s catch). -/
theorem claim_persistence_fault_tolerance :
    constructStore FileState.absent = emptyStore
    ∧ constructStore FileState.unparseable = emptyStore
    ∧ (∀ (s : ChatHistoryStore) (u sender content : String) (now : Nat) (writeOk : Bool),
        addMessageFull s u sender content now writeOk
          = Except.ok (s.addMessage u sender content now))
    ∧ (∀ (s : ChatHistoryStore) (u : String) (writeOk : Bool),
        clearHistoryFull s u writeOk = Except.ok (s.clearHistory u)) := by
  refine ⟨rfl, rfl, ?_, ?_⟩
  · intro s u sender content now writeOk
    cases writeOk <;> rfl
  · intro s u writeOk
    cases writeOk <;> rfl

/-! ## Claim C10 -/

/-- C10: Per-user isolation.  For distinct users u ≠ v, `addMessage` to u
and `clearHistory` of u leave `getHistory` for v unchanged, for every
limit. -/
theorem claim_user_isolation (s : ChatHistoryStore) (u v sender content : String)
    (now : Nat) (limit : Int) (huv : u ≠ v) :
    (s.addMessage u sender content now).getHistory v limit = s.getHistory v limit
    ∧ (s.clearHistory u).getHistory v limit = s.getHistory v limit := by
  constructor
  · rw [getHistory_eq, getHistory_eq,
      addMessage_getMessages_other s u v sender content now (Ne.symm huv)]
  · unfold ChatHistoryStore.getHistory ChatHistoryStore.clearHistory
    rw [mapGet_mapDelete_ne _ _ _ (Ne.symm huv)]

/-- C10 witness: isolation applied to a concrete two-user store. -/
theorem claim_user_isolation_witness :
    (("42" : String) ≠ "alice")
    ∧ ((sampleStore.addMessage "42" "user" "x" 7).getHistory "alice" 10
          = sampleStore.getHistory "alice" 10
       ∧ (sampleStore.clearHistory "42").getHistory "alice" 10
          = sampleStore.getHistory "alice" 10) :=
  ⟨by decide, claim_user_isolation sampleStore "42" "alice" "user" "x" 7 10 (by decide)⟩

/-! ## Lemmas about `processMessage` -/

/-- When the guard passes and all three balance lookups succeed, the turn
is the `try` block plus, on a fault, the apology reply from the `catch`;
nothing escapes. -/
theorem processMessage_try (env : TurnEnv) (a b c : Rat)
    (ht : env.hasText = true) (hf : env.hasFrom = true)
    (hs : env.sol = Except.ok a) (hu : env.usdc = Except.ok b)
    (hi : env.usdi = Except.ok c) :
    processMessage env =
      ⟨(tryBlock env).1 ++
         (if (tryBlock env).2.isSome then [Event.replySent apologyText] else []),
       none⟩ := by
  unfold processMessage
  rw [ht, hf, hs, hu, hi]
  cases htb : tryBlock env with
  | mk evs fault =>
    cases fault <;> simp [htb]

/-! ## Concrete turn environments used by witnesses and counterexamples -/

/-- A completion whose selection names the unhandled action "transfer". -/
def transferEnv : TurnEnv :=
  ⟨true, true, Except.ok 0, Except.ok 0, Except.ok 0, none,
   Except.ok [⟨[⟨"transfer", some (ArgsWire.fields (some 3) none none)⟩], none⟩],
   fun _ => false⟩

/-- A completion whose selection names "balance" (a commented-out tool the
switch still routes). -/
def balanceEnv : TurnEnv :=
  ⟨true, true, Except.ok 0, Except.ok 0, Except.ok 0, none,
   Except.ok [⟨[⟨"balance", some (ArgsWire.fields none none none)⟩], none⟩],
   fun _ => false⟩

/-- A completion selecting "withdraw" with an amount but no address. -/
def withdrawNoAddrEnv : TurnEnv :=
  ⟨true, true, Except.ok 0, Except.ok 0, Except.ok 0, none,
   Except.ok [⟨[⟨"withdraw", some (ArgsWire.fields (some 5) none none)⟩], none⟩],
   fun _ => false⟩

/-- A turn whose first balance lookup throws. -/
def balanceFaultEnv : TurnEnv :=
  ⟨true, true, Except.error "rpc down", Except.ok 0, Except.ok 0, none,
   Except.ok [], fun _ => false⟩

/-- A turn whose reasoning-service call throws (e.g. a timeout). -/
def timeoutEnv : TurnEnv :=
  ⟨true, true, Except.ok 0, Except.ok 0, Except.ok 0, none,
   Except.error "timeout of 20000ms exceeded", fun _ => false⟩

/-- A completion with no tool call and free text. -/
def freeTextEnv : TurnEnv :=
  ⟨true, true, Except.ok 0, Except.ok 0, Except.ok 0, none,
   Except.ok [⟨[], some "hello"⟩], fun _ => false⟩

/-! ## Claim C2 -/

/-- C2 counterexample: a response whose selection names "transfer" (any
identifier outside the switch) produces *zero* observable outcomes — no
handler invocation, no reply of any kind, nothing thrown — because the
switch has no default case and the `else if` chain is skipped when a tool
call is present; the claim requires exactly one outcome for every
response shape. -/
theorem claim_single_outcome_counterexample :
    processMessage transferEnv = ⟨[], none⟩ ∧ ([] : List Event).length = 0 := ⟨rfl, rfl⟩

/-- C2 (amended): for every reasoning-service response, the turn produces
exactly one observable outcome — one handler invocation, or one text
reply, or one fallback/apology reply — *except* when a tool selection is
present whose name is outside the six switch cases and whose arguments
parse, in which case the turn produces zero outcomes (silent drop).
(Stated under a passing guard, successful balance lookups and handlers
that return normally.) -/
theorem claim_single_outcome_dispatch (env : TurnEnv) (a b c : Rat)
    (ht : env.hasText = true) (hf : env.hasFrom = true)
    (hs : env.sol = Except.ok a) (hu : env.usdc = Except.ok b)
    (hi : env.usdi = Except.ok c)
    (hh : ∀ n, env.handlerThrows n = false) :
    ((processMessage env).events.length = 1 ∧ (processMessage env).thrown = none)
    ∨ (∃ choices msg tc args,
        env.completion = Except.ok choices ∧ choices.head? = some msg
        ∧ msg.toolCalls.head? = some tc ∧ parseArgs tc.arguments = Except.ok args
        ∧ tc.name ∉ handledNames
        ∧ (processMessage env).events = [] ∧ (processMessage env).thrown = none) := by
  rw [processMessage_try env a b c ht hf hs hu hi]
  cases hc : env.completion with
  | error e => left; simp [tryBlock, hc]
  | ok choices =>
    cases hch : choices.head? with
    | none => left; simp [tryBlock, hc, hch]
    | some msg =>
      cases htc : msg.toolCalls.head? with
      | none =>
        cases hct : msg.content with
        | none => left; simp [tryBlock, hc, hch, htc, hct]
        | some r =>
          by_cases hr : r = "" <;> left <;> simp [tryBlock, hc, hch, htc, hct, hr]
      | some tc =>
        cases hpa : parseArgs tc.arguments with
        | error e => left; simp [tryBlock, hc, hch, htc, hpa]
        | ok args =>
          by_cases h1 : tc.name = "mint"
          · left; simp [tryBlock, hc, hch, htc, hpa, dispatchSwitch, h1, runHandler, hh]
          by_cases h2 : tc.name = "balance"
          · left; simp [tryBlock, hc, hch, htc, hpa, dispatchSwitch, h1, h2, runHandler, hh]
          by_cases h3 : tc.name = "redeem"
          · left; simp [tryBlock, hc, hch, htc, hpa, dispatchSwitch, h1, h2, h3, runHandler, hh]
          by_cases h4 : tc.name = "withdraw"
          · left
            simp [tryBlock, hc, hch, htc, hpa, dispatchSwitch, h1, h2, h3, h4, runHandler, hh]
          by_cases h5 : tc.name = "deposit"
          · left
            simp [tryBlock, hc, hch, htc, hpa, dispatchSwitch, h1, h2, h3, h4, h5, runHandler, hh]
          by_cases h6 : tc.name = "chat"
          · cases hmsg : args.message with
            | none =>
              left
              simp [tryBlock, hc, hch, htc, hpa, dispatchSwitch,
                h1, h2, h3, h4, h5, h6, hmsg]
            | some m =>
              left
              simp [tryBlock, hc, hch, htc, hpa, dispatchSwitch,
                h1, h2, h3, h4, h5, h6, hmsg]
          · right
            refine ⟨choices, msg, tc, args, rfl, hch, htc, hpa, ?_, ?_, rfl⟩
            · simp [handledNames]
              exact ⟨h1, h2, h3, h4, h5, h6⟩
            · simp [tryBlock, hc, hch, htc, hpa, dispatchSwitch,
                h1, h2, h3, h4, h5, h6]

/-- C2 witness: the amended dispatch theorem applied to a concrete
free-text turn. -/
theorem claim_single_outcome_dispatch_witness :
    (((processMessage freeTextEnv).events.length = 1
        ∧ (processMessage freeTextEnv).thrown = none)
      ∨ (∃ choices msg tc args,
          freeTextEnv.completion = Except.ok choices ∧ choices.head? = some msg
          ∧ msg.toolCalls.head? = some tc ∧ parseArgs tc.arguments = Except.ok args
          ∧ tc.name ∉ handledNames
          ∧ (processMessage freeTextEnv).events = []
          ∧ (processMessage freeTextEnv).thrown = none)) :=
  claim_single_outcome_dispatch freeTextEnv 0 0 0 rfl rfl rfl rfl rfl (fun _ => rfl)

/-! ## Claim C3 -/

/-- C3 (refuting evaluation): a response selecting `withdraw` whose parsed
arguments carry an amount but *no* address is dispatched straight to the
withdraw handler (`handleWithdrawalAddress`) with an undefined address
argument — the switch performs no argument validation and nothing routes
to a fallback.  The claim that such a turn never reaches the withdraw
handler contradicts this. -/
theorem claim_withdraw_missing_address_dispatches :
    processMessage withdrawNoAddrEnv
      = ⟨[Event.handlerCall "withdraw" (some 5) none], none⟩
    ∧ (∀ t, Event.replySent t ∉ (processMessage withdrawNoAddrEnv).events) := by
  refine ⟨rfl, ?_⟩
  intro t h
  simp [show processMessage withdrawNoAddrEnv
    = ⟨[Event.handlerCall "withdraw" (some 5) none], none⟩ from rfl] at h

/-! ## Claim C4 -/

/-- C4 counterexample: when the first balance lookup throws, the exception
escapes `processMessage` to its caller and the user receives no reply at
all — the balance lookups sit *before* the `try`, so the claim that any
throwing step yields the fixed apology reply fails here. -/
theorem claim_reply_on_fault_counterexample :
    processMessage balanceFaultEnv = ⟨[], some "rpc down"⟩ := rfl

/-- C4 (amended): with the guard passing, (1) if all three balance lookups
succeed, nothing escapes the turn and any fault raised inside the `try`
block (reasoning-service call, empty-choices access, argument parsing,
chat-reply rendering, handler dispatch) ends with the single fixed apology
reply appended; but (2) a fault in any of the three balance lookups, which
run *before* the `try`, escapes to the caller and the turn ends with no
reply delivered. -/
theorem claim_reply_on_fault (env : TurnEnv) :
    (∀ (a b c : Rat), env.hasText = true → env.hasFrom = true →
      env.sol = Except.ok a → env.usdc = Except.ok b → env.usdi = Except.ok c →
      (processMessage env).thrown = none
      ∧ ((tryBlock env).2.isSome = true →
          (processMessage env).events = (tryBlock env).1 ++ [Event.replySent apologyText]))
    ∧ (∀ e : String, env.hasText = true → env.hasFrom = true →
        env.sol = Except.error e → processMessage env = ⟨[], some e⟩)
    ∧ (∀ (a : Rat) (e : String), env.hasText = true → env.hasFrom = true →
        env.sol = Except.ok a → env.usdc = Except.error e →
        processMessage env = ⟨[], some e⟩)
    ∧ (∀ (a b : Rat) (e : String), env.hasText = true → env.hasFrom = true →
        env.sol = Except.ok a → env.usdc = Except.ok b → env.usdi = Except.error e →
        processMessage env = ⟨[], some e⟩) := by
  refine ⟨?_, ?_, ?_, ?_⟩
  · intro a b c ht hf hs hu hi
    rw [processMessage_try env a b c ht hf hs hu hi]
    refine ⟨rfl, fun hfault => ?_⟩
    simp [hfault]
  · intro e ht hf hs
    unfold processMessage
    rw [ht, hf, if_neg (by decide), hs]
  · intro a e ht hf hs hu
    unfold processMessage
    rw [ht, hf, if_neg (by decide), hs, hu]
  · intro a b e ht hf hs hu hi
    unfold processMessage
    rw [ht, hf, if_neg (by decide), hs, hu, hi]

/-- C4 witness: part (1) at a turn whose reasoning call times out, part (2)
at a turn whose balance lookup fails. -/
theorem claim_reply_on_fault_witness :
    ((processMessage timeoutEnv).thrown = none
      ∧ ((tryBlock timeoutEnv).2.isSome = true →
          (processMessage timeoutEnv).events
            = (tryBlock timeoutEnv).1 ++ [Event.replySent apologyText]))
    ∧ processMessage balanceFaultEnv = ⟨[], some "rpc down"⟩ :=
  ⟨(claim_reply_on_fault timeoutEnv).1 0 0 0 rfl rfl rfl rfl rfl,
   (claim_reply_on_fault balanceFaultEnv).2.1 "rpc down" rfl rfl rfl⟩

/-! ## Claim C5 -/

/-- C5 counterexample: the identifier "balance" lies outside the claimed
closed set {mint, redeem, withdraw, deposit, chat}, yet the dispatcher
routes it to a handler (`handleBalance`) instead of performing a no-op
with a fallback reply. -/
theorem claim_unknown_action_counterexample :
    processMessage balanceEnv = ⟨[Event.handlerCall "balance" none none], none⟩
    ∧ "balance" ∉ ["mint", "redeem", "withdraw", "deposit", "chat"] :=
  ⟨rfl, by decide⟩

/-- C5 (amended): the switch recognizes the six identifiers of
`handledNames` (including "balance"); a selection naming anything else,
with arguments that parse, is silently dropped: no handler is invoked, *no
reply of any kind is produced* (there is no default case, so the turn does
not fall through to a fallback reply), and nothing is thrown. -/
theorem claim_unknown_action_noop (env : TurnEnv) (a b c : Rat)
    (choices : List CompletionMsg) (msg : CompletionMsg) (tc : ToolCallData)
    (args : ParsedArgs)
    (ht : env.hasText = true) (hf : env.hasFrom = true)
    (hs : env.sol = Except.ok a) (hu : env.usdc = Except.ok b)
    (hi : env.usdi = Except.ok c)
    (hc : env.completion = Except.ok choices) (hch : choices.head? = some msg)
    (htc : msg.toolCalls.head? = some tc)
    (hpa : parseArgs tc.arguments = Except.ok args)
    (hn : tc.name ∉ handledNames) :
    processMessage env = ⟨[], none⟩ := by
  rw [processMessage_try env a b c ht hf hs hu hi]
  simp only [handledNames, List.mem_cons, List.not_mem_nil, or_false, not_or] at hn
  obtain ⟨h1, h2, h3, h4, h5, h6⟩ := hn
  simp [tryBlock, hc, hch, htc, hpa, dispatchSwitch, h1, h2, h3, h4, h5, h6]

/-- C5 witness: the no-op theorem applied to the concrete "transfer"
selection. -/
theorem claim_unknown_action_noop_witness :
    transferEnv.completion
        = Except.ok [⟨[⟨"transfer", some (ArgsWire.fields (some 3) none none)⟩], none⟩]
    ∧ ("transfer" : String) ∉ handledNames
    ∧ processMessage transferEnv = ⟨[], none⟩ :=
  ⟨rfl, by decide,
   claim_unknown_action_noop transferEnv 0 0 0
     [⟨[⟨"transfer", some (ArgsWire.fields (some 3) none none)⟩], none⟩]
     ⟨[⟨"transfer", some (ArgsWire.fields (some 3) none none)⟩], none⟩
     ⟨"transfer", some (ArgsWire.fields (some 3) none none)⟩
     ⟨some 3, none, none⟩
     rfl rfl rfl rfl rfl rfl rfl rfl rfl (by decide)⟩

/-! ## Lemmas about first-occurrence replacement -/

theorem jsReplaceFirst_data (s pat repl : String) :
    (jsReplaceFirst s pat repl).data = listReplaceFirst pat.data repl.data s.data := rfl

theorem listReplaceFirst_cons (pat repl : List Char) (c : Char) (rest : List Char) :
    listReplaceFirst pat repl (c :: rest)
      = if pat.isPrefixOf (c :: rest) then repl ++ (c :: rest).drop pat.length
        else c :: listReplaceFirst pat repl rest := rfl

/-- Skipping a block that does not contain the pattern's head character:
no occurrence of the pattern can start inside it. -/
theorem lrf_skip (p : Char) (ps repl : List Char) (X : List Char) (rest : List Char)
    (hX : p ∉ X) :
    listReplaceFirst (p :: ps) repl (X ++ rest)
      = X ++ listReplaceFirst (p :: ps) repl rest := by
  induction X with
  | nil => simp
  | cons c X ih =>
    have hpc : (p == c) = false := by
      have hne : p ≠ c := fun e => hX (by rw [e]; exact List.mem_cons_self c X)
      simp [hne]
    rw [List.cons_append, listReplaceFirst_cons, if_neg (by
      show ¬((p == c && ps.isPrefixOf (X ++ rest)) = true)
      rw [hpc, Bool.false_and]
      exact Bool.false_ne_true)]
    rw [ih (fun hm => hX (List.mem_cons_of_mem c hm)), List.cons_append]

/-- Replacing at an exact occurrence of the pattern. -/
theorem lrf_hit (p : Char) (ps repl rest : List Char) :
    listReplaceFirst (p :: ps) repl ((p :: ps) ++ rest) = repl ++ rest := by
  rw [List.cons_append, listReplaceFirst_cons, if_pos (by
    show ((p == p && ps.isPrefixOf (ps ++ rest)) = true)
    rw [beq_self_eq_true, Bool.true_and]
    exact List.isPrefixOf_iff_prefix.mpr (List.prefix_append ps rest))]
  congr 1
  show (p :: (ps ++ rest)).drop (ps.length + 1) = rest
  rw [List.drop_succ_cons]
  exact List.drop_left ps rest

theorem digitChar_toNat (d : Nat) (hd : d < 10) : (Char.ofNat (48 + d)).toNat = 48 + d := by
  interval_cases d <;> decide

/-- Characters of `toFixed5` output are digits, a dot, a minus sign and zero
padding — every character has code point at most 57, so no character with
a larger code point (such as a brace, code point 123) occurs in it. -/
theorem not_mem_natDigitsAux_of_gt (c : Char) (hc : 57 < c.toNat) :
    ∀ (fuel n : Nat), c ∉ natDigitsAux fuel n := by
  intro fuel
  induction fuel with
  | zero => intro n h; simp [natDigitsAux] at h
  | succ fuel ih =>
    intro n hmem
    unfold natDigitsAux at hmem
    by_cases h : n < 10
    · rw [if_pos h, List.mem_singleton] at hmem
      rw [hmem, digitChar_toNat n h] at hc
      omega
    · rw [if_neg h, List.mem_append] at hmem
      rcases hmem with h1 | h2
      · exact ih _ h1
      · have hm : n % 10 < 10 := Nat.mod_lt _ (by norm_num)
        rw [List.mem_singleton] at h2
        rw [h2, digitChar_toNat (n % 10) hm] at hc
        omega

theorem not_mem_natToString_of_gt (c : Char) (hc : 57 < c.toNat) (n : Nat) :
    c ∉ (natToString n).data :=
  not_mem_natDigitsAux_of_gt c hc _ _

theorem not_mem_toFixed5Abs_of_gt (q : Rat) (c : Char) (hc : 57 < c.toNat) :
    c ∉ (toFixed5Abs q).data := by
  unfold toFixed5Abs
  intro hmem
  simp only [String.data_append, List.mem_append, List.mem_replicate,
    show ∀ l : List Char, (String.mk l).data = l from fun _ => rfl] at hmem
  rcases hmem with ((h | h) | h) | h
  · exact not_mem_natToString_of_gt c hc _ h
  · rw [List.mem_singleton] at h
    rw [h] at hc
    exact absurd hc (by decide)
  · rw [h.2] at hc
    exact absurd hc (by decide)
  · exact not_mem_natToString_of_gt c hc _ h

theorem not_mem_toFixed5_of_gt (q : Rat) (c : Char) (hc : 57 < c.toNat) :
    c ∉ (toFixed5 q).data := by
  unfold toFixed5
  by_cases h : q < 0
  · rw [if_pos h]
    intro hmem
    rw [String.data_append, List.mem_append] at hmem
    rcases hmem with h1 | h2
    · rw [show ("-" : String).data = ['-'] from rfl, List.mem_singleton] at h1
      rw [h1] at hc
      exact absurd hc (by decide)
    · exact not_mem_toFixed5Abs_of_gt (-q) c hc h2
  · rw [if_neg h]
    exact not_mem_toFixed5Abs_of_gt q c hc

theorem mem_toFixed5_eq_false (q : Rat) (c : Char) (hc : 57 < c.toNat) :
    (c ∈ (toFixed5 q).data) = False :=
  eq_false (not_mem_toFixed5_of_gt q c hc)

/-! ## Claim C9 -/

set_option maxRecDepth 8000 in
/-- C9 (refuting evaluation): JS `String.prototype.replace` with a string
pattern replaces only the *first* occurrence, and each balance placeholder
occurs twice in the template; so for every turn (shown here with no wallet,
so the sentinel is substituted) the rendered instruction block still
contains the literal `{usdcBalance}`, `{usdiBalance}` and `{solBalance}`
in the trailing reminder lines — placeholder text remains, contradicting
the claim that every occurrence is replaced.  The wallet-address
placeholder (single occurrence) and the first occurrence of each balance
placeholder are substituted as claimed. -/
theorem claim_prompt_placeholders_remain (usdc usdi sol : Rat) :
    systemPromptWithData none usdc usdi sol
      = promptSegA ++ "Not created yet" ++ promptSegB ++ toFixed5 usdc ++ promptSegC
        ++ toFixed5 usdi ++ promptSegD ++ toFixed5 sol ++ promptSegM1 ++ promptSegM2
        ++ promptSegM3 ++ promptSegM4 ++ promptSegM5 ++ promptSegM6 ++ apostrophe
        ++ promptSegM7 ++ promptSegM8 ++ "{usdcBalance}" ++ promptSegC ++ "{usdiBalance}"
        ++ promptSegD ++ "{solBalance}" ++ " SOL" := by
  apply String.ext
  simp only [systemPromptWithData, jsReplaceFirst_data, walletDisplay, SYSTEM_PROMPT,
    String.data_append, List.append_assoc]
  simp +decide only [lrf_skip, lrf_hit, mem_toFixed5_eq_false, not_false_eq_true,
    List.append_assoc]

end HedgeBot
